import Mathlib

/-!
# CC2Note: the CC-to-note toggle of `CC2Note::HandleMidiEvent`

Shallow embedding of `src/CC2Note/CC2Note.cpp`.

* The two private members `noteNumber` (C++ `int`, initially `0`) and
  `isNoteOff` (C++ `bool`, initially `true`) form `State`.
* The five indexed parameters are read by `HandleMidiEvent` into `int`
  locals (`_ch`, `_cc`, `min`, `max`, `velocity`); `Config` holds those
  `int` values, one `Config` per call since the host may change the
  parameters between calls.
* `HandleMidiEvent` returns the new members together with the list of
  `mCallbackHelper.AddMIDIEvent` calls it made, each call recorded by its
  five arguments exactly as written at the call site.  The conversion of an
  argument to a byte is `toUInt8`.
* The `UInt8` / `UInt32` parameters `status`, `channel`, `data1`, `data2`,
  `inStartFrame` are used only in comparisons and in `channel + 1`, which
  C++ evaluates in `int`; they are carried as `Int`.

C++ `int` values are modelled by `Int`.  The only arithmetic on them is
`channel + 1`, on a promoted `UInt8`, which cannot leave the `int` range, and
`noteNumber++` on the 32-bit `int` member.  The increment is modelled with
its two's-complement result, `wrapInt32 (noteNumber + 1)`: it is
`noteNumber + 1` for every `int` value below `2147483647`, and at
`2147483647`, where the C++ increment overflows, it is `-2147483648`.

Not modelled: the debug log, and the final call to the base class
`AUMIDIBase::HandleMidiEvent`, neither of which touches `noteNumber`,
`isNoteOff` or the callback helper.
-/

namespace CC2Note

/-- Status byte of a Note On message (`#define kNoteOn 0x90`). -/
def kNoteOn : Int := 0x90

/-- Status byte of a Note Off message (`#define kNoteOff 0x80`). -/
def kNoteOff : Int := 0x80

/-- Status byte of a Control Change message (`#define kControlChange 0xb0`). -/
def kControlChange : Int := 0xb0

/-- The parameter values as `HandleMidiEvent` holds them in its `int` locals:
`kParameter_Ch`, `kParameter_CC`, `kParameter_NoteMin`, `kParameter_NoteMax`,
`kParameter_Velocity`. -/
structure Config where
  ch : Int
  cc : Int
  noteMin : Int
  noteMax : Int
  velocity : Int
  deriving DecidableEq

/-- The private members `int noteNumber` and `bool isNoteOff`. -/
structure State where
  noteNumber : Int
  isNoteOff : Bool
  deriving DecidableEq

/-- Member initialisers: `int noteNumber = 0; bool isNoteOff = true;`. -/
def State.init : State := ⟨0, true⟩

/-- The five values `(status, channel, data1, data2, inStartFrame)`, both as
the parameters of `HandleMidiEvent` and as the arguments of one
`AddMIDIEvent` call. -/
structure MidiEvent where
  status : Int
  channel : Int
  data1 : Int
  data2 : Int
  inStartFrame : Int
  deriving DecidableEq

/-- The guard `channel + 1 == _ch && status == kControlChange && data1 == _cc`. -/
def isMatch (cfg : Config) (ev : MidiEvent) : Bool :=
  decide (ev.channel + 1 = cfg.ch) && decide (ev.status = kControlChange) &&
    decide (ev.data1 = cfg.cc)

/-- The statement `if (noteNumber > max || noteNumber < min) noteNumber = min;`
as the value of `noteNumber` after it. -/
def clampNote (cfg : Config) (noteNumber : Int) : Int :=
  if noteNumber > cfg.noteMax ∨ noteNumber < cfg.noteMin then cfg.noteMin else noteNumber

/-- Reduction of an integer into the range of a 32-bit C++ `int`,
`-2147483648 .. 2147483647` (two's complement). -/
def wrapInt32 (x : Int) : Int := (x + 2147483648) % 4294967296 - 2147483648

/-- One call of `CC2Note::HandleMidiEvent`: the members after the call and
the `AddMIDIEvent` calls made, in order.  `noteNumber++` acts on a 32-bit
`int`. -/
def HandleMidiEvent (cfg : Config) (s : State) (ev : MidiEvent) : State × List MidiEvent :=
  if isMatch cfg ev then
    if s.isNoteOff = true ∧ ev.data2 > 0 then
      (⟨clampNote cfg s.noteNumber, false⟩,
        [⟨kNoteOn, ev.channel, clampNote cfg s.noteNumber, cfg.velocity, ev.inStartFrame⟩])
    else if s.isNoteOff = false ∧ ev.data2 = 0 then
      (⟨wrapInt32 (s.noteNumber + 1), true⟩,
        [⟨kNoteOff, ev.channel, s.noteNumber, 0, ev.inStartFrame⟩])
    else
      (s, [])
  else
    (s, [ev])

/-- The members after a sequence of calls, each with the parameter values
in force at that call. -/
def finalState (s : State) : List (Config × MidiEvent) → State
  | [] => s
  | (cfg, ev) :: rest => finalState (HandleMidiEvent cfg s ev).1 rest

/-- All `AddMIDIEvent` calls made over a sequence of calls, in order. -/
def outputs (s : State) : List (Config × MidiEvent) → List MidiEvent
  | [] => []
  | (cfg, ev) :: rest =>
      (HandleMidiEvent cfg s ev).2 ++ outputs (HandleMidiEvent cfg s ev).1 rest

/-- The `AddMIDIEvent` calls made inside the matching branch (the two
synthesised-note call sites), each with the parameter values in force. -/
def synthesized (s : State) : List (Config × MidiEvent) → List (Config × MidiEvent)
  | [] => []
  | (cfg, ev) :: rest =>
      (if isMatch cfg ev then (HandleMidiEvent cfg s ev).2.map (fun e => (cfg, e)) else [])
        ++ synthesized (HandleMidiEvent cfg s ev).1 rest

/-- Integral conversion of a C++ `int` to `UInt8` (reduction modulo 256). -/
def toUInt8 (x : Int) : Int := x % 256

/-- The ranges `GetParameterInfo` declares for `kParameter_NoteMin`,
`kParameter_NoteMax` and `kParameter_Velocity` (`minValue = 1`,
`maxValue = 127`). -/
def Config.inRange (cfg : Config) : Prop :=
  (1 ≤ cfg.noteMin ∧ cfg.noteMin ≤ 127) ∧ (1 ≤ cfg.noteMax ∧ cfg.noteMax ≤ 127) ∧
    (1 ≤ cfg.velocity ∧ cfg.velocity ≤ 127)

instance (cfg : Config) : Decidable cfg.inRange := by
  unfold Config.inRange; infer_instance

/-- The parameter values set by the constructor:
`Ch = 1, CC = 64, NoteMin = 60, NoteMax = 72, Velocity = 127`. -/
def Config.default : Config := ⟨1, 64, 60, 72, 127⟩

/-- The input sequence "trigger, release, trigger, release, ..." under one
fixed set of parameter values. -/
def pairInputs (cfg : Config) : List (MidiEvent × MidiEvent) → List (Config × MidiEvent)
  | [] => []
  | (t, r) :: rest => (cfg, t) :: (cfg, r) :: pairInputs cfg rest

/-- The note `noteMin + (k mod (noteMax - noteMin + 1))`. -/
def cycleNote (cfg : Config) (k : Nat) : Int :=
  cfg.noteMin + (k : Int) % (cfg.noteMax - cfg.noteMin + 1)

/-- The Note On / Note Off pairs on the notes `cycleNote cfg k`,
`cycleNote cfg (k + 1)`, ... for a list of trigger/release pairs. -/
def cycleOutputs (cfg : Config) (k : Nat) : List (MidiEvent × MidiEvent) → List MidiEvent
  | [] => []
  | (t, r) :: rest =>
      ⟨kNoteOn, t.channel, cycleNote cfg k, cfg.velocity, t.inStartFrame⟩ ::
        ⟨kNoteOff, r.channel, cycleNote cfg k, 0, r.inStartFrame⟩ ::
          cycleOutputs cfg (k + 1) rest

/-- A trace of synthesised calls that alternates Note On / Note Off, each
Note Off repeating the note of the Note On before it, and its channel too
when the configured channel is the same at both.  The first argument is the
Note On still waiting for its Note Off, if any. -/
def Paired : Option (Config × MidiEvent) → List (Config × MidiEvent) → Prop
  | _, [] => True
  | none, x :: t => x.2.status = kNoteOn ∧ Paired (some x) t
  | some o, x :: t =>
      x.2.status = kNoteOff ∧ x.2.data1 = o.2.data1 ∧
        (x.1.ch = o.1.ch → x.2.channel = o.2.channel) ∧ Paired none t

/-- Number of Note On calls in a trace of synthesised calls. -/
def countOn (T : List (Config × MidiEvent)) : Nat :=
  T.countP (fun x => decide (x.2.status = kNoteOn))

/-- Number of Note Off calls in a trace of synthesised calls. -/
def countOff (T : List (Config × MidiEvent)) : Nat :=
  T.countP (fun x => decide (x.2.status = kNoteOff))

/-- Bounds on the members kept by calls whose note parameters are in
`1..127`. -/
def State.bounded (s : State) : Prop :=
  (0 ≤ s.noteNumber ∧ s.noteNumber ≤ 128) ∧
    (s.isNoteOff = false → 1 ≤ s.noteNumber ∧ s.noteNumber ≤ 127)

/-! ## Single-call lemmas -/

theorem wrapInt32_eq (x : Int) (h0 : -2147483648 ≤ x) (h1 : x ≤ 2147483647) :
    wrapInt32 x = x := by
  unfold wrapInt32
  omega

theorem isMatch_iff (cfg : Config) (ev : MidiEvent) :
    isMatch cfg ev = true ↔
      (ev.channel + 1 = cfg.ch ∧ ev.status = kControlChange ∧ ev.data1 = cfg.cc) := by
  simp [isMatch, and_assoc]

theorem handle_nonMatch (cfg : Config) (s : State) (ev : MidiEvent)
    (h : isMatch cfg ev = false) : HandleMidiEvent cfg s ev = (s, [ev]) := by
  simp [HandleMidiEvent, h]

theorem handle_trigger (cfg : Config) (s : State) (ev : MidiEvent)
    (hm : isMatch cfg ev = true) (hoff : s.isNoteOff = true) (hd : ev.data2 > 0) :
    HandleMidiEvent cfg s ev =
      (⟨clampNote cfg s.noteNumber, false⟩,
        [⟨kNoteOn, ev.channel, clampNote cfg s.noteNumber, cfg.velocity, ev.inStartFrame⟩]) := by
  simp [HandleMidiEvent, hm, hoff, hd]

theorem handle_release (cfg : Config) (s : State) (ev : MidiEvent)
    (hm : isMatch cfg ev = true) (hon : s.isNoteOff = false) (hd : ev.data2 = 0) :
    HandleMidiEvent cfg s ev =
      (⟨wrapInt32 (s.noteNumber + 1), true⟩,
        [⟨kNoteOff, ev.channel, s.noteNumber, 0, ev.inStartFrame⟩]) := by
  simp [HandleMidiEvent, hm, hon, hd]

theorem handle_debounce (cfg : Config) (s : State) (ev : MidiEvent)
    (hm : isMatch cfg ev = true)
    (h : (ev.data2 = 0 ∧ s.isNoteOff = true) ∨ (ev.data2 > 0 ∧ s.isNoteOff = false)) :
    HandleMidiEvent cfg s ev = (s, []) := by
  rcases h with ⟨hd, hs⟩ | ⟨hd, hs⟩
  · simp [HandleMidiEvent, hm, hs, hd]
  · have hne : ev.data2 ≠ 0 := by omega
    simp [HandleMidiEvent, hm, hs, hne]

theorem clampNote_eq (cfg : Config) (n : Int) :
    clampNote cfg n = if cfg.noteMin ≤ n ∧ n ≤ cfg.noteMax then n else cfg.noteMin := by
  unfold clampNote
  by_cases h1 : n > cfg.noteMax
  · have : ¬ (cfg.noteMin ≤ n ∧ n ≤ cfg.noteMax) := by omega
    simp [h1, this]
  · by_cases h2 : n < cfg.noteMin
    · have : ¬ (cfg.noteMin ≤ n ∧ n ≤ cfg.noteMax) := by omega
      simp [h2, this]
    · have : cfg.noteMin ≤ n ∧ n ≤ cfg.noteMax := by omega
      simp [h1, h2, this]

/-! ## Claims about a single call -/

/-- C1: for every state, every config and every incoming event that is not a
match (channel + 1 differs from the configured channel, or the status is not
Control Change, or data1 differs from the configured controller number), the
call enqueues exactly one event, equal to the input event, and leaves
`noteNumber` and `isNoteOff` unchanged. -/
theorem C1_passThrough (cfg : Config) (s : State) (ev : MidiEvent)
    (h : ev.channel + 1 ≠ cfg.ch ∨ ev.status ≠ kControlChange ∨ ev.data1 ≠ cfg.cc) :
    (HandleMidiEvent cfg s ev).2 = [ev] ∧ (HandleMidiEvent cfg s ev).1 = s := by
  have hm : isMatch cfg ev = false := by
    rw [Bool.eq_false_iff]
    intro hc
    rw [isMatch_iff] at hc
    tauto
  rw [handle_nonMatch cfg s ev hm]
  exact ⟨rfl, rfl⟩

/-- Witness for C1: the Note On pass-through example of the specification. -/
theorem C1_passThrough_witness :
    ((0 : Int) + 1 ≠ Config.default.ch ∨ (0x90 : Int) ≠ kControlChange ∨
        (40 : Int) ≠ Config.default.cc) ∧
      (HandleMidiEvent Config.default ⟨60, true⟩ ⟨0x90, 0, 40, 90, 7⟩).2
          = [⟨0x90, 0, 40, 90, 7⟩] ∧
      (HandleMidiEvent Config.default ⟨60, true⟩ ⟨0x90, 0, 40, 90, 7⟩).1 = ⟨60, true⟩ :=
  ⟨by decide, C1_passThrough Config.default ⟨60, true⟩ ⟨0x90, 0, 40, 90, 7⟩ (by decide)⟩

/-- C2 (trigger): in a state with `isNoteOff = true`, a matching Control Change
with data2 > 0 enqueues exactly one event, a Note On on the event's channel and
frame offset with the configured velocity, whose note is `noteNumber` when
noteMin ≤ noteNumber ≤ noteMax and noteMin otherwise; afterwards
`isNoteOff = false`. -/
theorem C2_trigger (cfg : Config) (s : State) (ev : MidiEvent)
    (hoff : s.isNoteOff = true)
    (hm : ev.channel + 1 = cfg.ch ∧ ev.status = kControlChange ∧ ev.data1 = cfg.cc)
    (hd : ev.data2 > 0) :
    (HandleMidiEvent cfg s ev).2 =
        [⟨kNoteOn, ev.channel,
          if cfg.noteMin ≤ s.noteNumber ∧ s.noteNumber ≤ cfg.noteMax then s.noteNumber
          else cfg.noteMin,
          cfg.velocity, ev.inStartFrame⟩] ∧
      (HandleMidiEvent cfg s ev).1.isNoteOff = false := by
  rw [handle_trigger cfg s ev ((isMatch_iff cfg ev).2 hm) hoff hd, clampNote_eq]
  exact ⟨rfl, rfl⟩

/-- Witness for C2: the first step of the end-to-end example of the
specification. -/
theorem C2_trigger_witness :
    (HandleMidiEvent Config.default ⟨60, true⟩ ⟨0xb0, 0, 64, 100, 3⟩).2
        = [⟨0x90, 0, 60, 127, 3⟩] ∧
      (HandleMidiEvent Config.default ⟨60, true⟩ ⟨0xb0, 0, 64, 100, 3⟩).1.isNoteOff = false :=
  C2_trigger Config.default ⟨60, true⟩ ⟨0xb0, 0, 64, 100, 3⟩ rfl (by decide) (by decide)

/-- C4, as stated, fails: from the initial members (`noteNumber = 0`,
`isNoteOff = true`) and the constructor's parameter values, a matching Control
Change with data2 = 100 changes `noteNumber` from 0 to 60. -/
theorem C4_trigger_changes_noteNumber :
    ¬ (∀ (cfg : Config) (s : State) (ev : MidiEvent), s.isNoteOff = true →
        (ev.channel + 1 = cfg.ch ∧ ev.status = kControlChange ∧ ev.data1 = cfg.cc) →
        ev.data2 > 0 → (HandleMidiEvent cfg s ev).1.noteNumber = s.noteNumber) := by
  intro h
  have h0 := h Config.default State.init ⟨0xb0, 0, 64, 100, 0⟩ rfl (by decide) (by decide)
  revert h0
  decide

/-- C4 (amended): in a state with `isNoteOff = true`, a matching Control Change
with data2 > 0 leaves `noteNumber` unchanged when
noteMin ≤ noteNumber ≤ noteMax and resets it to noteMin otherwise; it never
increments it.  Over all calls, `noteNumber` changes only on such a resetting
trigger (to noteMin) and on the release transition (by plus one, for an `int`
value below 2147483647). -/
theorem C4_trigger_noteNumber (cfg : Config) (s : State) (ev : MidiEvent)
    (hoff : s.isNoteOff = true)
    (hm : ev.channel + 1 = cfg.ch ∧ ev.status = kControlChange ∧ ev.data1 = cfg.cc)
    (hd : ev.data2 > 0) :
    (HandleMidiEvent cfg s ev).1.noteNumber =
        (if cfg.noteMin ≤ s.noteNumber ∧ s.noteNumber ≤ cfg.noteMax then s.noteNumber
          else cfg.noteMin) ∧
      (∀ (cfg' : Config) (s' : State) (ev' : MidiEvent),
        (HandleMidiEvent cfg' s' ev').1.noteNumber ≠ s'.noteNumber →
          (ev'.channel + 1 = cfg'.ch ∧ ev'.status = kControlChange ∧ ev'.data1 = cfg'.cc) ∧
          ((s'.isNoteOff = true ∧ ev'.data2 > 0 ∧
              ¬ (cfg'.noteMin ≤ s'.noteNumber ∧ s'.noteNumber ≤ cfg'.noteMax) ∧
              (HandleMidiEvent cfg' s' ev').1.noteNumber = cfg'.noteMin) ∨
            (s'.isNoteOff = false ∧ ev'.data2 = 0 ∧
              (-2147483648 ≤ s'.noteNumber ∧ s'.noteNumber < 2147483647 →
                (HandleMidiEvent cfg' s' ev').1.noteNumber = s'.noteNumber + 1)))) := by
  constructor
  · rw [handle_trigger cfg s ev ((isMatch_iff cfg ev).2 hm) hoff hd, clampNote_eq]
  · intro cfg' s' ev' hne
    by_cases hm' : isMatch cfg' ev' = true
    · refine ⟨(isMatch_iff cfg' ev').1 hm', ?_⟩
      by_cases h1 : s'.isNoteOff = true ∧ ev'.data2 > 0
      · left
        rw [handle_trigger cfg' s' ev' hm' h1.1 h1.2, clampNote_eq] at hne ⊢
        by_cases hr : cfg'.noteMin ≤ s'.noteNumber ∧ s'.noteNumber ≤ cfg'.noteMax
        · simp [hr] at hne
        · simp [hr, h1.1, h1.2]
      · by_cases h2 : s'.isNoteOff = false ∧ ev'.data2 = 0
        · right
          rw [handle_release cfg' s' ev' hm' h2.1 h2.2]
          exact ⟨h2.1, h2.2, fun hb => wrapInt32_eq _ (by omega) (by omega)⟩
        · exfalso
          apply hne
          simp [HandleMidiEvent, hm', h1, h2]
    · rw [Bool.not_eq_true] at hm'
      rw [handle_nonMatch cfg' s' ev' hm'] at hne
      exact absurd rfl hne

/-- Witness for C4 (amended): a trigger with `noteNumber = 73` above
noteMax = 72 resets it to noteMin = 60. -/
theorem C4_trigger_noteNumber_witness :
    (HandleMidiEvent Config.default ⟨73, true⟩ ⟨0xb0, 0, 64, 1, 0⟩).1.noteNumber = 60 :=
  (C4_trigger_noteNumber Config.default ⟨73, true⟩ ⟨0xb0, 0, 64, 1, 0⟩ rfl
    (by decide) (by decide)).1

/-- C5 (debounce): a matching Control Change that is neither edge (data2 = 0
while `isNoteOff = true`, or data2 > 0 while `isNoteOff = false`) enqueues
nothing and leaves `noteNumber` and `isNoteOff` unchanged; hence a trigger
(matching, data2 > 0, arriving with `isNoteOff = true`) directly followed by a
second matching Control Change with data2 > 0 enqueues exactly one event over
the two calls, the Note On of the first. -/
theorem C5_debounce (cfg : Config) (s : State) (ev ev2 : MidiEvent)
    (hm : ev.channel + 1 = cfg.ch ∧ ev.status = kControlChange ∧ ev.data1 = cfg.cc) :
    (((ev.data2 = 0 ∧ s.isNoteOff = true) ∨ (ev.data2 > 0 ∧ s.isNoteOff = false)) →
        (HandleMidiEvent cfg s ev).2 = [] ∧ (HandleMidiEvent cfg s ev).1 = s) ∧
      (s.isNoteOff = true → ev.data2 > 0 →
        (ev2.channel + 1 = cfg.ch ∧ ev2.status = kControlChange ∧ ev2.data1 = cfg.cc) →
        ev2.data2 > 0 →
        outputs s [(cfg, ev), (cfg, ev2)] =
            [⟨kNoteOn, ev.channel,
              if cfg.noteMin ≤ s.noteNumber ∧ s.noteNumber ≤ cfg.noteMax then s.noteNumber
              else cfg.noteMin,
              cfg.velocity, ev.inStartFrame⟩] ∧
          ((outputs s [(cfg, ev), (cfg, ev2)]).filter
            (fun e => decide (e.status = kNoteOn))).length = 1) := by
  have hmb := (isMatch_iff cfg ev).2 hm
  constructor
  · intro h
    rw [handle_debounce cfg s ev hmb h]
    exact ⟨rfl, rfl⟩
  · intro hoff hd hm2 hd2
    have hmb2 := (isMatch_iff cfg ev2).2 hm2
    have e1 := handle_trigger cfg s ev hmb hoff hd
    have e2 := handle_debounce cfg ⟨clampNote cfg s.noteNumber, false⟩ ev2 hmb2
      (Or.inr ⟨hd2, rfl⟩)
    have hout : outputs s [(cfg, ev), (cfg, ev2)] =
        [⟨kNoteOn, ev.channel,
          if cfg.noteMin ≤ s.noteNumber ∧ s.noteNumber ≤ cfg.noteMax then s.noteNumber
          else cfg.noteMin,
          cfg.velocity, ev.inStartFrame⟩] := by
      simp only [outputs, e1, e2]
      rw [clampNote_eq]
      rfl
    refine ⟨hout, ?_⟩
    rw [hout]
    simp

/-- Witness for C5: with the constructor's parameter values, two Control
Changes 64 with values 100 and 90 from the silent state give one Note On. -/
theorem C5_debounce_witness :
    outputs ⟨60, true⟩ [(Config.default, ⟨0xb0, 0, 64, 100, 0⟩),
        (Config.default, ⟨0xb0, 0, 64, 90, 1⟩)] = [⟨0x90, 0, 60, 127, 0⟩] :=
  ((C5_debounce Config.default ⟨60, true⟩ ⟨0xb0, 0, 64, 100, 0⟩ ⟨0xb0, 0, 64, 90, 1⟩
    (by decide)).2 rfl (by decide) (by decide) (by decide)).1

/-! ## Sequences of calls -/

theorem run_cases (cfg : Config) (s : State) (ev : MidiEvent)
    (rest : List (Config × MidiEvent)) :
    (synthesized s ((cfg, ev) :: rest) = synthesized s rest ∧
        finalState s ((cfg, ev) :: rest) = finalState s rest) ∨
      (isMatch cfg ev = true ∧ s.isNoteOff = true ∧ ev.data2 > 0 ∧
        synthesized s ((cfg, ev) :: rest) =
          (cfg, ⟨kNoteOn, ev.channel, clampNote cfg s.noteNumber, cfg.velocity,
              ev.inStartFrame⟩) :: synthesized ⟨clampNote cfg s.noteNumber, false⟩ rest ∧
        finalState s ((cfg, ev) :: rest) =
          finalState ⟨clampNote cfg s.noteNumber, false⟩ rest) ∨
      (isMatch cfg ev = true ∧ s.isNoteOff = false ∧ ev.data2 = 0 ∧
        synthesized s ((cfg, ev) :: rest) =
          (cfg, ⟨kNoteOff, ev.channel, s.noteNumber, 0, ev.inStartFrame⟩) ::
            synthesized ⟨wrapInt32 (s.noteNumber + 1), true⟩ rest ∧
        finalState s ((cfg, ev) :: rest) =
          finalState ⟨wrapInt32 (s.noteNumber + 1), true⟩ rest) := by
  by_cases hm : isMatch cfg ev = true
  · by_cases h1 : s.isNoteOff = true ∧ ev.data2 > 0
    · right; left
      refine ⟨hm, h1.1, h1.2, ?_, ?_⟩
      · simp [synthesized, hm, handle_trigger cfg s ev hm h1.1 h1.2]
      · simp [finalState, handle_trigger cfg s ev hm h1.1 h1.2]
    · by_cases h2 : s.isNoteOff = false ∧ ev.data2 = 0
      · right; right
        refine ⟨hm, h2.1, h2.2, ?_, ?_⟩
        · simp [synthesized, hm, handle_release cfg s ev hm h2.1 h2.2]
        · simp [finalState, handle_release cfg s ev hm h2.1 h2.2]
      · left
        have e : HandleMidiEvent cfg s ev = (s, []) := by
          simp [HandleMidiEvent, hm, h1, h2]
        constructor
        · simp [synthesized, hm, e]
        · simp [finalState, e]
  · left
    rw [Bool.not_eq_true] at hm
    constructor
    · simp [synthesized, hm, handle_nonMatch cfg s ev hm]
    · simp [finalState, handle_nonMatch cfg s ev hm]

theorem kNoteOn_ne_kNoteOff : kNoteOn ≠ kNoteOff := by decide

theorem paired_synthesized (inputs : List (Config × MidiEvent)) :
    ∀ s : State,
      (s.isNoteOff = true → Paired none (synthesized s inputs)) ∧
      (s.isNoteOff = false → ∀ o : Config × MidiEvent, o.2.data1 = s.noteNumber →
        o.2.channel + 1 = o.1.ch → Paired (some o) (synthesized s inputs)) := by
  induction inputs with
  | nil =>
    intro s
    constructor
    · intro _; simp [synthesized, Paired]
    · intro _ o _ _; simp [synthesized, Paired]
  | cons x rest ih =>
    intro s
    obtain ⟨cfg, ev⟩ := x
    rcases run_cases cfg s ev rest with ⟨e, _⟩ | ⟨hm, hoff, _, e, _⟩ | ⟨hm, hon, _, e, _⟩
    · rw [e]; exact ih s
    · rw [e]
      constructor
      · intro _
        refine ⟨rfl, ?_⟩
        exact (ih ⟨clampNote cfg s.noteNumber, false⟩).2 rfl _ rfl
          ((isMatch_iff cfg ev).1 hm).1
      · intro h; rw [hoff] at h; exact absurd h (by decide)
    · rw [e]
      constructor
      · intro h; rw [hon] at h; exact absurd h (by decide)
      · intro _ o ho hc
        refine ⟨rfl, ho.symm, ?_, (ih ⟨wrapInt32 (s.noteNumber + 1), true⟩).1 rfl⟩
        intro hch
        have h1 : ev.channel + 1 = cfg.ch := ((isMatch_iff cfg ev).1 hm).1
        show ev.channel = o.2.channel
        have h2 : cfg.ch = o.1.ch := hch
        omega

theorem paired_status (T : List (Config × MidiEvent)) :
    ∀ (m : Option (Config × MidiEvent)), Paired m T →
      ∀ (i : Nat) (x : Config × MidiEvent), T[i]? = some x →
        x.2.status = if (i % 2 = 0 ↔ m = none) then kNoteOn else kNoteOff := by
  induction T with
  | nil => intro m _ i x h; simp at h
  | cons y t ih =>
    intro m hp i x hx
    cases m with
    | none =>
      obtain ⟨hy, ht⟩ := hp
      cases i with
      | zero =>
        simp at hx; subst hx; simp [hy]
      | succ k =>
        simp at hx
        have := ih (some y) ht k x hx
        rw [this]
        have hk : ((k + 1) % 2 = 0) ↔ ¬ (k % 2 = 0) := by omega
        simp [hk]
    | some o =>
      obtain ⟨hy, _, _, ht⟩ := hp
      cases i with
      | zero =>
        simp at hx; subst hx; simp [hy]
      | succ k =>
        simp at hx
        have := ih none ht k x hx
        rw [this]
        have hk : ((k + 1) % 2 = 0) ↔ ¬ (k % 2 = 0) := by omega
        simp [hk]

theorem paired_prev (T : List (Config × MidiEvent)) :
    ∀ (m : Option (Config × MidiEvent)), Paired m T →
      ∀ (i : Nat) (off : Config × MidiEvent), T[i]? = some off →
        off.2.status = kNoteOff →
        (i = 0 ∧ ∃ o, m = some o ∧ off.2.data1 = o.2.data1 ∧
            (off.1.ch = o.1.ch → off.2.channel = o.2.channel)) ∨
          (∃ (j : Nat) (prev : Config × MidiEvent), i = j + 1 ∧ T[j]? = some prev ∧
            prev.2.status = kNoteOn ∧ off.2.data1 = prev.2.data1 ∧
            (off.1.ch = prev.1.ch → off.2.channel = prev.2.channel)) := by
  induction T with
  | nil => intro m _ i x h; simp at h
  | cons y t ih =>
    intro m hp i off hx hoff
    cases m with
    | none =>
      obtain ⟨hy, ht⟩ := hp
      cases i with
      | zero =>
        simp at hx; subst hx
        rw [hy] at hoff
        exact absurd hoff kNoteOn_ne_kNoteOff
      | succ k =>
        simp at hx
        right
        rcases ih (some y) ht k off hx hoff with ⟨hk, o, ho, h1, h2⟩ | ⟨j, prev, hk, hj, h1, h2, h3⟩
        · have : o = y := by simpa using ho.symm
          subst this
          exact ⟨0, o, by omega, by simp, hy, h1, h2⟩
        · exact ⟨j + 1, prev, by omega, by simpa using hj, h1, h2, h3⟩
    | some o =>
      obtain ⟨hy, hd, hc, ht⟩ := hp
      cases i with
      | zero =>
        simp at hx; subst hx
        left
        exact ⟨rfl, o, rfl, hd, hc⟩
      | succ k =>
        simp at hx
        right
        rcases ih none ht k off hx hoff with ⟨_, o', ho, _⟩ | ⟨j, prev, hk, hj, h1, h2, h3⟩
        · exact absurd ho (by simp)
        · exact ⟨j + 1, prev, by omega, by simpa using hj, h1, h2, h3⟩

theorem count_synthesized (inputs : List (Config × MidiEvent)) :
    ∀ s : State,
      (countOn (synthesized s inputs) : Int) - (countOff (synthesized s inputs) : Int) =
        (if (finalState s inputs).isNoteOff = true then 0 else 1) -
          (if s.isNoteOff = true then 0 else 1) := by
  induction inputs with
  | nil => intro s; simp [synthesized, finalState, countOn, countOff]
  | cons x rest ih =>
    intro s
    obtain ⟨cfg, ev⟩ := x
    rcases run_cases cfg s ev rest with ⟨e, f⟩ | ⟨_, hoff, _, e, f⟩ | ⟨_, hon, _, e, f⟩
    · rw [e, f]; exact ih s
    · rw [e, f]
      have := ih ⟨clampNote cfg s.noteNumber, false⟩
      simp only [countOn, countOff] at this ⊢
      rw [List.countP_cons, List.countP_cons]
      simp [hoff, kNoteOn_ne_kNoteOff] at this ⊢
      omega
    · rw [e, f]
      have := ih ⟨wrapInt32 (s.noteNumber + 1), true⟩
      simp only [countOn, countOff] at this ⊢
      rw [List.countP_cons, List.countP_cons]
      simp [hon, kNoteOn_ne_kNoteOff.symm] at this ⊢
      omega

/-- C7 (monophony): for every finite sequence of (config, event) inputs
processed from the initial members, the calls synthesised by matching Control
Changes alternate Note On, Note Off, Note On, ... beginning with a Note On;
after every prefix of the inputs the number of synthesised Note Ons minus the
number of synthesised Note Offs is 0 or 1, and it is 1 exactly when
`isNoteOff` is false. -/
theorem C7_monophony (inputs : List (Config × MidiEvent)) :
    (∀ (i : Nat) (x : Config × MidiEvent), (synthesized State.init inputs)[i]? = some x →
        x.2.status = if i % 2 = 0 then kNoteOn else kNoteOff) ∧
      (∀ n : Nat,
        (((countOn (synthesized State.init (inputs.take n)) : Int) -
              (countOff (synthesized State.init (inputs.take n)) : Int) = 0) ∨
            ((countOn (synthesized State.init (inputs.take n)) : Int) -
              (countOff (synthesized State.init (inputs.take n)) : Int) = 1)) ∧
          (((countOn (synthesized State.init (inputs.take n)) : Int) -
              (countOff (synthesized State.init (inputs.take n)) : Int) = 1) ↔
            (finalState State.init (inputs.take n)).isNoteOff = false)) := by
  constructor
  · intro i x hx
    have hp := (paired_synthesized inputs State.init).1 rfl
    have := paired_status _ none hp i x hx
    simpa using this
  · intro n
    have h := count_synthesized (inputs.take n) State.init
    simp only [State.init] at h ⊢
    cases hf : (finalState ⟨0, true⟩ (inputs.take n)).isNoteOff <;> simp [hf] at h ⊢ <;> omega

/-- Witness for C7: in the trace of a trigger/release pair the second
synthesised call is the Note Off. -/
theorem C7_monophony_witness :
    ((Config.default, (⟨0x80, 0, 60, 0, 1⟩ : MidiEvent)).2.status =
      if 1 % 2 = 0 then kNoteOn else kNoteOff) :=
  (C7_monophony
    [(Config.default, ⟨0xb0, 0, 64, 100, 0⟩), (Config.default, ⟨0x90, 0, 40, 90, 0⟩),
      (Config.default, ⟨0xb0, 0, 64, 0, 1⟩)]).1 1
    (Config.default, ⟨0x80, 0, 60, 0, 1⟩) (by decide)

/-- C10 (no stuck note): for every finite sequence of (config, event) inputs
processed from the initial members, with all parameters free to change between
calls, every synthesised Note Off is directly preceded, among the synthesised
calls, by a Note On (the most recent one) carrying the same note number; and
if the configured channel is the same at both calls, the Note Off is on the
same channel as that Note On. -/
theorem C10_noteOff_matches_noteOn (inputs : List (Config × MidiEvent))
    (i : Nat) (off : Config × MidiEvent)
    (hi : (synthesized State.init inputs)[i]? = some off)
    (hoff : off.2.status = kNoteOff) :
    ∃ (j : Nat) (prev : Config × MidiEvent), i = j + 1 ∧
      (synthesized State.init inputs)[j]? = some prev ∧
      prev.2.status = kNoteOn ∧ off.2.data1 = prev.2.data1 ∧
      (off.1.ch = prev.1.ch → off.2.channel = prev.2.channel) := by
  have hp := (paired_synthesized inputs State.init).1 rfl
  rcases paired_prev _ none hp i off hi hoff with ⟨_, o, ho, _⟩ | h
  · exact absurd ho (by simp)
  · exact h

/-- Witness for C10: a trigger under the constructor's parameter values, then
a release after the note range and velocity were changed. -/
theorem C10_noteOff_matches_noteOn_witness :
    ∃ (j : Nat) (prev : Config × MidiEvent), 1 = j + 1 ∧
      (synthesized State.init
        [(Config.default, ⟨0xb0, 0, 64, 100, 0⟩), (⟨1, 64, 10, 20, 5⟩, ⟨0xb0, 0, 64, 0, 9⟩)])[j]?
          = some prev ∧
      prev.2.status = kNoteOn ∧ (60 : Int) = prev.2.data1 ∧
      ((1 : Int) = prev.1.ch → (0 : Int) = prev.2.channel) :=
  C10_noteOff_matches_noteOn
    [(Config.default, ⟨0xb0, 0, 64, 100, 0⟩), (⟨1, 64, 10, 20, 5⟩, ⟨0xb0, 0, 64, 0, 9⟩)]
    1 (⟨1, 64, 10, 20, 5⟩, ⟨0x80, 0, 60, 0, 9⟩) (by decide) (by decide)

theorem clampNote_inverted (cfg : Config) (h : cfg.noteMin > cfg.noteMax) (n : Int) :
    clampNote cfg n = cfg.noteMin := by
  unfold clampNote
  have : n > cfg.noteMax ∨ n < cfg.noteMin := by omega
  simp [this]

theorem inverted_synthesized (cfg : Config) (h : cfg.noteMin > cfg.noteMax)
    (evs : List MidiEvent) :
    ∀ s : State, ∀ x ∈ synthesized s (evs.map (fun e => (cfg, e))),
      x.2.status = kNoteOn → x.2.data1 = cfg.noteMin := by
  induction evs with
  | nil => intro s x hx; simp [synthesized] at hx
  | cons ev rest ih =>
    intro s x hx hst
    rw [List.map_cons] at hx
    rcases run_cases cfg s ev (rest.map (fun e => (cfg, e))) with
      ⟨e, _⟩ | ⟨_, _, _, e, _⟩ | ⟨_, _, _, e, _⟩
    · rw [e] at hx; exact ih s x hx hst
    · rw [e, List.mem_cons] at hx
      rcases hx with rfl | hx
      · exact clampNote_inverted cfg h _
      · exact ih _ x hx hst
    · rw [e, List.mem_cons] at hx
      rcases hx with rfl | hx
      · exact absurd hst.symm kNoteOn_ne_kNoteOff
      · exact ih _ x hx hst

/-- C8 (inverted range): for every config with noteMin > noteMax and every
state with `isNoteOff = true`, whatever `noteNumber` is, a matching Control
Change with data2 > 0 enqueues a Note On whose note is noteMin and sets
`noteNumber` to noteMin; so under a fixed inverted config, from any state and
for any sequence of events, every synthesised Note On has note noteMin. -/
theorem C8_inverted_range (cfg : Config) (s : State) (ev : MidiEvent)
    (hinv : cfg.noteMin > cfg.noteMax) :
    (s.isNoteOff = true →
        (ev.channel + 1 = cfg.ch ∧ ev.status = kControlChange ∧ ev.data1 = cfg.cc) →
        ev.data2 > 0 →
        (HandleMidiEvent cfg s ev).2 =
            [⟨kNoteOn, ev.channel, cfg.noteMin, cfg.velocity, ev.inStartFrame⟩] ∧
          (HandleMidiEvent cfg s ev).1.noteNumber = cfg.noteMin) ∧
      (∀ (evs : List MidiEvent), ∀ x ∈ synthesized s (evs.map (fun e => (cfg, e))),
        x.2.status = kNoteOn → x.2.data1 = cfg.noteMin) := by
  constructor
  · intro hoff hm hd
    rw [handle_trigger cfg s ev ((isMatch_iff cfg ev).2 hm) hoff hd,
      clampNote_inverted cfg hinv]
    exact ⟨rfl, rfl⟩
  · intro evs
    exact inverted_synthesized cfg hinv evs s

/-- Witness for C8: noteMin = 72 above noteMax = 60, trigger with
`noteNumber = 65`. -/
theorem C8_inverted_range_witness :
    (HandleMidiEvent ⟨1, 64, 72, 60, 127⟩ ⟨65, true⟩ ⟨0xb0, 0, 64, 1, 0⟩).2 =
        [⟨kNoteOn, 0, 72, 127, 0⟩] ∧
      (HandleMidiEvent ⟨1, 64, 72, 60, 127⟩ ⟨65, true⟩ ⟨0xb0, 0, 64, 1, 0⟩).1.noteNumber = 72 :=
  (C8_inverted_range ⟨1, 64, 72, 60, 127⟩ ⟨65, true⟩ ⟨0xb0, 0, 64, 1, 0⟩ (by decide)).1
    rfl (by decide) (by decide)

theorem clampNote_inRange (cfg : Config) (h : cfg.inRange) (n : Int) :
    1 ≤ clampNote cfg n ∧ clampNote cfg n ≤ 127 := by
  obtain ⟨⟨h1, h2⟩, ⟨h3, h4⟩, _⟩ := h
  unfold clampNote
  split <;> omega

theorem bounded_run (inputs : List (Config × MidiEvent)) :
    ∀ s : State, s.bounded → (∀ x ∈ inputs, x.1.inRange) →
      (finalState s inputs).bounded ∧
        ∀ x ∈ synthesized s inputs,
          (x.2.status = kNoteOn ∨ x.2.status = kNoteOff) ∧
            (1 ≤ x.2.data1 ∧ x.2.data1 ≤ 127) ∧ (0 ≤ x.2.data2 ∧ x.2.data2 ≤ 127) := by
  induction inputs with
  | nil => intro s hs _; exact ⟨hs, by simp [synthesized]⟩
  | cons y rest ih =>
    intro s hs hin
    obtain ⟨cfg, ev⟩ := y
    have hcfg : cfg.inRange := hin (cfg, ev) (List.mem_cons_self _ _)
    have hrest : ∀ x ∈ rest, x.1.inRange := fun x hx => hin x (List.mem_cons_of_mem _ hx)
    rcases run_cases cfg s ev rest with ⟨e, f⟩ | ⟨_, _, _, e, f⟩ | ⟨_, hon, _, e, f⟩
    · rw [e, f]; exact ih s hs hrest
    · rw [e, f]
      have hc := clampNote_inRange cfg hcfg s.noteNumber
      have hs' : State.bounded ⟨clampNote cfg s.noteNumber, false⟩ :=
        ⟨⟨by show 0 ≤ clampNote cfg s.noteNumber; omega,
          by show clampNote cfg s.noteNumber ≤ 128; omega⟩, fun _ => hc⟩
      obtain ⟨i1, i2⟩ := ih _ hs' hrest
      refine ⟨i1, ?_⟩
      intro x hx
      rw [List.mem_cons] at hx
      rcases hx with rfl | hx
      · obtain ⟨_, _, hv⟩ := hcfg
        exact ⟨Or.inl rfl, hc, ⟨by show 0 ≤ cfg.velocity; omega, hv.2⟩⟩
      · exact i2 x hx
    · rw [e, f]
      have hn := hs.2 hon
      rw [wrapInt32_eq (s.noteNumber + 1) (by omega) (by omega)]
      have hs' : State.bounded ⟨s.noteNumber + 1, true⟩ :=
        ⟨⟨by show 0 ≤ s.noteNumber + 1; omega, by show s.noteNumber + 1 ≤ 128; omega⟩,
          fun h => absurd h (by simp)⟩
      obtain ⟨i1, i2⟩ := ih _ hs' hrest
      refine ⟨i1, ?_⟩
      intro x hx
      rw [List.mem_cons] at hx
      rcases hx with rfl | hx
      · exact ⟨Or.inr rfl, hn, ⟨by show (0 : Int) ≤ 0; decide, by show (0 : Int) ≤ 127; decide⟩⟩
      · exact i2 x hx

theorem toUInt8_of_byte (x : Int) (h0 : 0 ≤ x) (h1 : x ≤ 127) : toUInt8 x = x := by
  unfold toUInt8
  omega

/-- C9 (well-formed output): every call enqueues zero or one event; and for
every finite sequence of inputs processed from the initial members, with
parameter values that may change between calls but always have noteMin,
noteMax and velocity in 1..127, every synthesised call is a Note On or Note
Off whose note is in 1..127 and whose velocity is in 0..127, so that both are
unchanged by conversion to a byte; and the `noteNumber` reached satisfies
0 ≤ noteNumber ≤ 128. -/
theorem C9_wellFormed (inputs : List (Config × MidiEvent))
    (hcfg : ∀ x ∈ inputs, x.1.inRange) :
    (∀ (cfg : Config) (s : State) (ev : MidiEvent), (HandleMidiEvent cfg s ev).2.length ≤ 1) ∧
      (∀ x ∈ synthesized State.init inputs,
        (x.2.status = kNoteOn ∨ x.2.status = kNoteOff) ∧
          (1 ≤ x.2.data1 ∧ x.2.data1 ≤ 127) ∧ (0 ≤ x.2.data2 ∧ x.2.data2 ≤ 127) ∧
          toUInt8 x.2.data1 = x.2.data1 ∧ toUInt8 x.2.data2 = x.2.data2) ∧
      (0 ≤ (finalState State.init inputs).noteNumber ∧
        (finalState State.init inputs).noteNumber ≤ 128) := by
  have h0 : State.init.bounded := ⟨⟨by decide, by decide⟩, fun h => absurd h (by decide)⟩
  obtain ⟨hb, hs⟩ := bounded_run inputs State.init h0 hcfg
  refine ⟨?_, ?_, hb.1⟩
  · intro cfg s ev
    unfold HandleMidiEvent
    split
    · split
      · simp
      · split <;> simp
    · simp
  · intro x hx
    obtain ⟨h1, h2, h3⟩ := hs x hx
    exact ⟨h1, h2, h3, toUInt8_of_byte _ (by omega) h2.2, toUInt8_of_byte _ h3.1 h3.2⟩

/-- Witness for C9: a trigger/release pair followed by a second trigger under
a changed note range. -/
theorem C9_wellFormed_witness :
    0 ≤ (finalState State.init
        [(Config.default, ⟨0xb0, 0, 64, 100, 0⟩), (Config.default, ⟨0xb0, 0, 64, 0, 1⟩),
          (⟨1, 64, 127, 127, 1⟩, ⟨0xb0, 0, 64, 5, 2⟩)]).noteNumber ∧
      (finalState State.init
        [(Config.default, ⟨0xb0, 0, 64, 100, 0⟩), (Config.default, ⟨0xb0, 0, 64, 0, 1⟩),
          (⟨1, 64, 127, 127, 1⟩, ⟨0xb0, 0, 64, 5, 2⟩)]).noteNumber ≤ 128 :=
  (C9_wellFormed
    [(Config.default, ⟨0xb0, 0, 64, 100, 0⟩), (Config.default, ⟨0xb0, 0, 64, 0, 1⟩),
      (⟨1, 64, 127, 127, 1⟩, ⟨0xb0, 0, 64, 5, 2⟩)] (by decide)).2.2

theorem cycleNote_succ (cfg : Config) (h : cfg.noteMin ≤ cfg.noteMax) (j : Nat) :
    clampNote cfg (cycleNote cfg j + 1) = cycleNote cfg (j + 1) := by
  have hm : 0 < cfg.noteMax - cfg.noteMin + 1 := by omega
  have h0 := Int.emod_nonneg (j : Int) (ne_of_gt hm)
  have h1 := Int.emod_lt_of_pos (j : Int) hm
  have hdec := Int.emod_add_ediv (j : Int) (cfg.noteMax - cfg.noteMin + 1)
  have hsucc : ((j + 1 : Nat) : Int) % (cfg.noteMax - cfg.noteMin + 1) =
      ((j : Int) % (cfg.noteMax - cfg.noteMin + 1) + 1) % (cfg.noteMax - cfg.noteMin + 1) := by
    rw [Nat.cast_succ]
    exact (Int.emod_add_emod _ _ _).symm
  unfold cycleNote clampNote
  rw [hsucc]
  by_cases hlt : (j : Int) % (cfg.noteMax - cfg.noteMin + 1) + 1 < cfg.noteMax - cfg.noteMin + 1
  · rw [Int.emod_eq_of_lt (by omega) hlt]
    have : ¬ (cfg.noteMin + (j : Int) % (cfg.noteMax - cfg.noteMin + 1) + 1 > cfg.noteMax ∨
        cfg.noteMin + (j : Int) % (cfg.noteMax - cfg.noteMin + 1) + 1 < cfg.noteMin) := by
      omega
    rw [if_neg this]
    omega
  · have heq : (j : Int) % (cfg.noteMax - cfg.noteMin + 1) + 1 = cfg.noteMax - cfg.noteMin + 1 := by
      omega
    rw [heq, Int.emod_self]
    have : cfg.noteMin + (j : Int) % (cfg.noteMax - cfg.noteMin + 1) + 1 > cfg.noteMax ∨
        cfg.noteMin + (j : Int) % (cfg.noteMax - cfg.noteMin + 1) + 1 < cfg.noteMin := by
      omega
    rw [if_pos this]
    omega

theorem cycleNote_bounds (cfg : Config) (h : cfg.noteMin ≤ cfg.noteMax) (j : Nat) :
    cfg.noteMin ≤ cycleNote cfg j ∧ cycleNote cfg j ≤ cfg.noteMax := by
  have hm : 0 < cfg.noteMax - cfg.noteMin + 1 := by omega
  have h0 := Int.emod_nonneg (j : Int) (ne_of_gt hm)
  have h1 := Int.emod_lt_of_pos (j : Int) hm
  unfold cycleNote
  constructor <;> omega

theorem cycle_outputs (cfg : Config) (h : cfg.noteMin ≤ cfg.noteMax)
    (hlo : -2147483648 ≤ cfg.noteMin) (hhi : cfg.noteMax < 2147483647)
    (ps : List (MidiEvent × MidiEvent)) :
    ∀ (c : Int) (j : Nat), clampNote cfg c = cycleNote cfg j →
      (∀ p ∈ ps, (isMatch cfg p.1 = true ∧ p.1.data2 > 0) ∧
        (isMatch cfg p.2 = true ∧ p.2.data2 = 0)) →
      outputs ⟨c, true⟩ (pairInputs cfg ps) = cycleOutputs cfg j ps := by
  induction ps with
  | nil => intro c j _ _; rfl
  | cons p rest ih =>
    intro c j hc hps
    obtain ⟨t, r⟩ := p
    obtain ⟨⟨ht, htd⟩, ⟨hr, hrd⟩⟩ := hps (t, r) (List.mem_cons_self _ _)
    have e1 := handle_trigger cfg ⟨c, true⟩ t ht rfl htd
    have e2 := handle_release cfg ⟨clampNote cfg c, false⟩ r hr rfl hrd
    have hb := cycleNote_bounds cfg h j
    have hw : wrapInt32 (clampNote cfg c + 1) = clampNote cfg c + 1 :=
      wrapInt32_eq _ (by omega) (by omega)
    simp only [hw] at e2
    simp only [pairInputs, outputs, cycleOutputs, e1, e2]
    have hnext : clampNote cfg (clampNote cfg c + 1) = cycleNote cfg (j + 1) := by
      rw [hc]; exact cycleNote_succ cfg h j
    rw [ih (clampNote cfg c + 1) (j + 1) hnext
      (fun p hp => hps p (List.mem_cons_of_mem _ hp)), hc]
    rfl

theorem cycleOutputs_length (cfg : Config) (ps : List (MidiEvent × MidiEvent)) :
    ∀ j : Nat, (cycleOutputs cfg j ps).length = 2 * ps.length := by
  induction ps with
  | nil => intro j; rfl
  | cons p rest ih =>
    intro j
    obtain ⟨t, r⟩ := p
    simp only [cycleOutputs, List.length_cons, ih (j + 1)]
    omega

theorem cycleOutputs_get (cfg : Config) (ps : List (MidiEvent × MidiEvent)) :
    ∀ (j k : Nat) (t r : MidiEvent), ps[k]? = some (t, r) →
      (cycleOutputs cfg j ps)[2 * k]? =
          some ⟨kNoteOn, t.channel, cycleNote cfg (j + k), cfg.velocity, t.inStartFrame⟩ ∧
        (cycleOutputs cfg j ps)[2 * k + 1]? =
          some ⟨kNoteOff, r.channel, cycleNote cfg (j + k), 0, r.inStartFrame⟩ := by
  induction ps with
  | nil => intro j k t r h; simp at h
  | cons p rest ih =>
    intro j k t r h
    obtain ⟨t0, r0⟩ := p
    cases k with
    | zero =>
      simp at h
      obtain ⟨rfl, rfl⟩ := h
      simp [cycleOutputs]
    | succ k =>
      simp at h
      have := ih (j + 1) k t r h
      have e1 : 2 * (k + 1) = (2 * k + 1) + 1 := by omega
      have e2 : j + (k + 1) = j + 1 + k := by omega
      rw [e1, e2]
      simp only [cycleOutputs, List.getElem?_cons_succ]
      exact this

/-- C6 (cycle): starting from the initial members (`noteNumber = 0`,
`isNoteOff = true`) with fixed parameter values satisfying
1 ≤ noteMin ≤ noteMax ≤ 127, feeding N alternating matching trigger
(data2 > 0) / release (data2 = 0) pairs enqueues exactly 2 N events: for each
k < N a Note On whose note is noteMin + (k mod (noteMax - noteMin + 1)),
directly followed by a Note Off on the same note. -/
theorem C6_cycle (cfg : Config) (ps : List (MidiEvent × MidiEvent))
    (hmin : 1 ≤ cfg.noteMin) (hle : cfg.noteMin ≤ cfg.noteMax) (hmax : cfg.noteMax ≤ 127)
    (hps : ∀ p ∈ ps,
      ((p.1.channel + 1 = cfg.ch ∧ p.1.status = kControlChange ∧ p.1.data1 = cfg.cc) ∧
          p.1.data2 > 0) ∧
        ((p.2.channel + 1 = cfg.ch ∧ p.2.status = kControlChange ∧ p.2.data1 = cfg.cc) ∧
          p.2.data2 = 0)) :
    (outputs State.init (pairInputs cfg ps)).length = 2 * ps.length ∧
      ∀ (k : Nat) (t r : MidiEvent), ps[k]? = some (t, r) →
        (outputs State.init (pairInputs cfg ps))[2 * k]? =
            some ⟨kNoteOn, t.channel,
              cfg.noteMin + (k : Int) % (cfg.noteMax - cfg.noteMin + 1),
              cfg.velocity, t.inStartFrame⟩ ∧
          (outputs State.init (pairInputs cfg ps))[2 * k + 1]? =
            some ⟨kNoteOff, r.channel,
              cfg.noteMin + (k : Int) % (cfg.noteMax - cfg.noteMin + 1),
              0, r.inStartFrame⟩ := by
  have hstart : clampNote cfg 0 = cycleNote cfg 0 := by
    unfold clampNote cycleNote
    have : (0 : Int) > cfg.noteMax ∨ (0 : Int) < cfg.noteMin := by omega
    rw [if_pos this]
    simp
  have hps' : ∀ p ∈ ps, (isMatch cfg p.1 = true ∧ p.1.data2 > 0) ∧
      (isMatch cfg p.2 = true ∧ p.2.data2 = 0) := by
    intro p hp
    obtain ⟨⟨a, b⟩, ⟨c, d⟩⟩ := hps p hp
    exact ⟨⟨(isMatch_iff cfg p.1).2 a, b⟩, ⟨(isMatch_iff cfg p.2).2 c, d⟩⟩
  have hout : outputs State.init (pairInputs cfg ps) = cycleOutputs cfg 0 ps :=
    cycle_outputs cfg hle (by omega) (by omega) ps 0 0 hstart hps'
  rw [hout]
  refine ⟨cycleOutputs_length cfg ps 0, ?_⟩
  intro k t r hk
  have := cycleOutputs_get cfg ps 0 k t r hk
  simpa [cycleNote] using this

/-- Witness for C6: noteMin = 60, noteMax = 62 and four trigger/release pairs
give the notes 60, 61, 62, 60. -/
theorem C6_cycle_witness :
    (outputs State.init (pairInputs ⟨1, 64, 60, 62, 127⟩
        [(⟨0xb0, 0, 64, 100, 0⟩, ⟨0xb0, 0, 64, 0, 1⟩), (⟨0xb0, 0, 64, 90, 2⟩, ⟨0xb0, 0, 64, 0, 3⟩),
          (⟨0xb0, 0, 64, 80, 4⟩, ⟨0xb0, 0, 64, 0, 5⟩),
          (⟨0xb0, 0, 64, 70, 6⟩, ⟨0xb0, 0, 64, 0, 7⟩)])).map (fun e => (e.status, e.data1))
      = [(0x90, 60), (0x80, 60), (0x90, 61), (0x80, 61), (0x90, 62), (0x80, 62),
          (0x90, 60), (0x80, 60)] ∧
    (outputs State.init (pairInputs ⟨1, 64, 60, 62, 127⟩
        [(⟨0xb0, 0, 64, 100, 0⟩, ⟨0xb0, 0, 64, 0, 1⟩), (⟨0xb0, 0, 64, 90, 2⟩, ⟨0xb0, 0, 64, 0, 3⟩),
          (⟨0xb0, 0, 64, 80, 4⟩, ⟨0xb0, 0, 64, 0, 5⟩),
          (⟨0xb0, 0, 64, 70, 6⟩, ⟨0xb0, 0, 64, 0, 7⟩)])).length = 2 * 4 :=
  ⟨by decide,
    (C6_cycle ⟨1, 64, 60, 62, 127⟩
      [(⟨0xb0, 0, 64, 100, 0⟩, ⟨0xb0, 0, 64, 0, 1⟩), (⟨0xb0, 0, 64, 90, 2⟩, ⟨0xb0, 0, 64, 0, 3⟩),
        (⟨0xb0, 0, 64, 80, 4⟩, ⟨0xb0, 0, 64, 0, 5⟩), (⟨0xb0, 0, 64, 70, 6⟩, ⟨0xb0, 0, 64, 0, 7⟩)]
      (by decide) (by decide) (by decide) (by decide)).1⟩

end CC2Note
